import Mathlib

/-!
# Browser-delegated login handshake (`internal/command/auth/webauth/webauth.go`)

A shallow embedding of `webauth.go`: session creation (`StartCLISession`), the
session-state query (`GetCLISessionState`, `GetAccessTokenForCLISession`), the
polling loop (`waitForCLISession`), the orchestration (`RunWebLogin`) and the
credential hand-off (`SaveToken`).

Everything outside the file is an explicit input of the model:

* the network (`net/http`) and the JSON codec (`encoding/json`) are the fields
  of `Net`, arbitrary functions that the theorems quantify over;
* time is a natural number of nanoseconds, a context is the instant at which
  its `Done` channel closes together with the error it reports from then on;
* writes to the terminal (`fmt.Printf`, the spinner, the logger) change neither
  a returned value nor the credential store and are left out.
-/

namespace Webauth

/-! ## Errors -/

/-- Go error values that the handshake produces or inspects: the two sentinel
errors of the `fly` client library, the two sentinel errors of `context`, a
leaf error made by `errors.New` (also used for opaque transport and codec
failures), and an error made by `fmt.Errorf` with a `%w` verb, which wraps its
cause. -/
inductive Error where
  | ErrNotFound
  | ErrUnknown
  | DeadlineExceeded
  | Canceled
  | New (msg : String)
  | Errorf (format : String) (cause : Error)
  deriving DecidableEq, Repr

/-- Walks the `Unwrap` chain of `err` looking for `target`, as `errors.Is` does
on a non-nil error. -/
def Error.Is : Error → Error → Bool
  | .Errorf f c, target => (Error.Errorf f c == target) || c.Is target
  | e, target => e == target

/-- The call `errors.Is(err, target)` where `err` may be nil. -/
def errorsIs (err : Option Error) (target : Error) : Bool :=
  match err with
  | none => false
  | some e => e.Is target

/-! ## Data model -/

/-- Modelled from the spec: the type `fly.CLISession` is declared outside the
source file; the spec gives it the fields id, url and access token, which are
the three fields `webauth.go` reads (`auth.ID`, `auth.URL`, `val.AccessToken`). -/
structure CLISession where
  ID : String
  URL : String
  AccessToken : String
  deriving DecidableEq, Repr

/-- The Go zero value of `fly.CLISession` (`var result fly.CLISession`). -/
def CLISession.zero : CLISession := ⟨"", "", ""⟩

/-- Values stored in a `map[string]interface{}` request mapping: the strings
and booleans that `webauth.go` stores itself, plus integers and null for
caller-supplied entries. -/
inductive Value where
  | String (s : String)
  | Bool (b : Bool)
  | Int (n : Int)
  | Null
  deriving DecidableEq, Repr

/-- A non-nil Go map from string keys to values, as an association list. -/
abbrev Map := List (String × Value)

/-- The lookup `m[k]` (with its presence flag as the option). -/
def Map.get (m : Map) (k : String) : Option Value :=
  match m with
  | [] => none
  | (k1, v) :: rest => if k1 = k then some v else Map.get rest k

/-- The assignment `m[k] = v`: any entry under `k` is dropped and the new one
is stored. -/
def Map.set (m : Map) (k : String) (v : Value) : Map :=
  m.filter (fun kv => decide (kv.1 ≠ k)) ++ [(k, v)]

/-! ## HTTP and JSON -/

/-- An outgoing `http.Request`: method, URL, the headers added so far and the
body bytes (`none` for a nil body). -/
structure Request where
  Method : String
  URL : String
  Header : List (String × String)
  Body : Option String
  deriving DecidableEq, Repr

/-- An incoming `http.Response`: the status code and the unread body. -/
structure Response where
  StatusCode : Int
  Body : String
  deriving DecidableEq, Repr

/-- The world outside the process as seen by one call: whether `net/http`
accepts a URL (`urlErr`), what `http.DefaultClient.Do` answers to a request,
what `json.Marshal` makes of a mapping (bytes and error), and what
`json.NewDecoder(body).Decode(&v)` does to a session variable `v` or to a
mapping variable `v` (the value left in `v` and the error). -/
structure Net where
  urlErr : String → Option Error
  Do : Request → Except Error Response
  Marshal : Map → String × Option Error
  Decode : String → CLISession → CLISession × Option Error
  DecodeMap : String → Map → Map × Option Error

/-- The constructor `http.NewRequest(method, url, body)`: fails when the URL
does not parse, otherwise a request without headers. -/
def NewRequest (net : Net) (method url : String) (body : Option String) :
    Except Error Request :=
  match net.urlErr url with
  | some err => .error err
  | none => .ok ⟨method, url, [], body⟩

/-- The call `req.Header.Add(key, value)`. -/
def Request.addHeader (req : Request) (key value : String) : Request :=
  { req with Header := req.Header ++ [(key, value)] }

/-! ## Session creation -/

/-- The mapping that `StartCLISession` serialises (lines 97-100): a nil
mapping becomes an empty one, then `args["name"] = sessionName`. -/
def StartCLISession.args (sessionName : String) (args : Option Map) : Map :=
  let args := match args with
    | none => []
    | some m => m
  Map.set args "name" (.String sessionName)

/-- What a call of `StartCLISession` did and returned: the request handed to
`http.DefaultClient.Do` (if it got that far), and the returned pair. -/
structure StartResult where
  sent : Option Request
  result : CLISession
  err : Option Error
  deriving DecidableEq, Repr

/-- The function `StartCLISession` (lines 94-136). The error of `json.Marshal`
is dropped (`postData, _ :=`), a status other than 201 decodes the body into a
scratch mapping, drops the outcome and gives `fly.ErrUnknown`, and on 201 the
error of `Decode(&result)` is dropped. -/
def StartCLISession (net : Net) (sessionName : String) (args : Option Map) : StartResult :=
  let result := CLISession.zero
  let postData := (net.Marshal (StartCLISession.args sessionName args)).1
  let url := "http://localhost:4000/api/v1/cli_sessions"
  match NewRequest net "POST" url (some postData) with
  | .error err => ⟨none, result, some err⟩
  | .ok req =>
    let req := (req.addHeader "content-type" "application/json").addHeader "x-staging" "1"
    match net.Do req with
    | .error err => ⟨some req, result, some err⟩
    | .ok resp =>
      if resp.StatusCode ≠ 201 then
        let _errorRes := (net.DecodeMap resp.Body []).1
        ⟨some req, result, some .ErrUnknown⟩
      else
        ⟨some req, (net.Decode resp.Body result).1, none⟩

/-- The function `StartCLISessionWebAuth` (lines 85-91). -/
def StartCLISessionWebAuth (net : Net) (machineName : String) (signup : Bool) : StartResult :=
  StartCLISession net machineName (some [("signup", .Bool signup), ("target", .String "auth")])

/-! ## Session state query -/

/-- The function `GetCLISessionState` (lines 147-179). The decoded session
lives in its own variable `auth`; every error return hands back `value`, which
is never assigned. -/
def GetCLISessionState (net : Net) (id : String) : CLISession × Option Error :=
  let value := CLISession.zero
  let url := "http://localhost:4000/api/v1/cli_sessions/" ++ id
  match NewRequest net "GET" url none with
  | .error err => (value, some err)
  | .ok req =>
    let req := req.addHeader "x-staging" "1"
    match net.Do req with
    | .error err => (value, some err)
    | .ok res =>
      if res.StatusCode = 200 then
        match net.Decode res.Body CLISession.zero with
        | (_, some err) =>
          (value, some (.Errorf "failed to decode session, please try again: %w" err))
        | (auth, none) => (auth, none)
      else if res.StatusCode = 404 then
        (value, some .ErrNotFound)
      else
        (value, some .ErrUnknown)

/-- The function `GetAccessTokenForCLISession` (lines 139-145). -/
def GetAccessTokenForCLISession (net : Net) (id : String) : String × Option Error :=
  match GetCLISessionState net id with
  | (_, some err) => ("", some err)
  | (val, none) => (val.AccessToken, none)

/-! ## Contexts and time -/

/-- A span of time in nanoseconds (`time.Duration`). -/
abbrev Duration := Nat

/-- The constant `time.Second`. -/
def Second : Duration := 1000000000

/-- The constant `time.Minute`. -/
def Minute : Duration := 60 * Second

/-- A `context.Context` seen from a clock: the instant at which it becomes
done (`none` for a context that never does, such as `context.Background()`)
and the error `Err()` reports from that instant on (`context.Canceled` for a
cancellation, `context.DeadlineExceeded` for a deadline). -/
structure Context where
  doneAt : Option Nat
  cause : Error
  deriving DecidableEq, Repr

/-- The method `ctx.Err()` called at instant `now`: nil until the context is
done. -/
def Context.Err (ctx : Context) (now : Nat) : Option Error :=
  match ctx.doneAt with
  | some t => if t ≤ now then some ctx.cause else none
  | none => none

/-- The call `context.WithTimeout(parent, d)` made at instant `now`: the child
ends with the parent when the parent ends first, and with
`context.DeadlineExceeded` at `now + d` otherwise. -/
def WithTimeout (parent : Context) (now : Nat) (d : Duration) : Context :=
  match parent.doneAt with
  | some t => if t ≤ now + d then parent else ⟨some (now + d), .DeadlineExceeded⟩
  | none => ⟨some (now + d), .DeadlineExceeded⟩

/-- The call `pause.For(ctx, d)` started at instant `now`; the value is the
instant at which it returns: after `d`, or as soon as the context is done. -/
def pauseFor (ctx : Context) (now : Nat) (d : Duration) : Nat :=
  match ctx.doneAt with
  | some t => if t ≤ now then now else min (now + d) t
  | none => now + d

/-! ## Polling -/

/-- The variables of `waitForCLISession` together with a record of what the
loop did: the named results `token` and `err`, the number of session-state
queries made, the time spent in each `pause.For`, and the clock. -/
structure Poll where
  token : String
  err : Option Error
  queries : Nat
  sleeps : List Duration
  now : Nat
  deriving DecidableEq, Repr

/-- The loop of `waitForCLISession` (lines 191-206) over the context `ctx`
made at instant `start` (line 183). `world i` is the network as the query
number `i` finds it and `dur i` the time that query takes. A failed query
stores its results in `token` and `err`, pauses for a second and goes round
again; a query without error stores its results and breaks; the loop also
ends when `ctx.Err()` is no longer nil at the top of an iteration. -/
def waitForCLISession.loop (world : Nat → Net) (dur : Nat → Duration) (parent : Context)
    (start : Nat) (id : String) (st : Poll) : Poll :=
  if _h : (WithTimeout parent start (15 * Minute)).Err st.now = none then
    match GetAccessTokenForCLISession (world st.queries) id with
    | (token, some err) =>
      waitForCLISession.loop world dur parent start id
        { token := token
          err := some err
          queries := st.queries + 1
          sleeps := st.sleeps ++
            [pauseFor (WithTimeout parent start (15 * Minute)) (st.now + dur st.queries) Second
              - (st.now + dur st.queries)]
          now := pauseFor (WithTimeout parent start (15 * Minute)) (st.now + dur st.queries) Second }
    | (token, none) =>
      { token := token
        err := none
        queries := st.queries + 1
        sleeps := st.sleeps
        now := st.now + dur st.queries }
  else
    st
termination_by start + 15 * Minute + 1 - st.now
decreasing_by
  have hnd : (WithTimeout parent start (15 * Minute)).Err st.now = none := by assumption
  have hS : (0 : Nat) < Second := by decide
  have hdl : ∃ t, (WithTimeout parent start (15 * Minute)).doneAt = some t
      ∧ t ≤ start + 15 * Minute := by
    unfold WithTimeout
    cases hp : parent.doneAt with
    | none => exact ⟨_, rfl, le_refl _⟩
    | some t =>
      by_cases ht : t ≤ start + 15 * Minute
      · exact ⟨t, by simp [ht, hp], ht⟩
      · exact ⟨_, by simp [ht], le_refl _⟩
  obtain ⟨t, ht, hle⟩ := hdl
  have hnow : st.now < t := by
    unfold Context.Err at hnd
    rw [ht] at hnd
    by_contra hc
    simp [Nat.le_of_not_lt hc] at hnd
  unfold pauseFor
  rw [ht]
  by_cases h1 : t ≤ st.now + dur st.queries
  · simp only [h1, if_true]; omega
  · simp only [h1, if_false]
    have : st.now < min (st.now + dur st.queries + Second) t := by
      rw [lt_min_iff]; constructor <;> omega
    omega

/-- The function `waitForCLISession` (lines 182-209), called at instant
`start`: the named results start as the empty token and the nil error
and are returned as the loop leaves them. -/
def waitForCLISession (world : Nat → Net) (dur : Nat → Duration) (parent : Context)
    (start : Nat) (id : String) : Poll :=
  waitForCLISession.loop world dur parent start id
    { token := "", err := none, queries := 0, sleeps := [], now := start }

/-- Time between the top of iteration `q` and the top of iteration `q + n` of
the polling loop when the `n` queries in between fail and every pause lasts its
full second. -/
def elapsed (dur : Nat → Duration) (q : Nat) : Nat → Nat
  | 0 => 0
  | n + 1 => dur q + Second + elapsed dur (q + 1) n

/-! ## Orchestration -/

/-- The function `RunWebLogin` (lines 50-83). `net` is the network at session
creation, `hostname` the value of `state.Hostname(ctx)`, and `start` the
instant at which polling begins. A failure of `open.Run` only prints a hint. -/
def RunWebLogin (net : Net) (world : Nat → Net) (dur : Nat → Duration) (hostname : String)
    (ctx : Context) (start : Nat) (signup : Bool) : String × Option Error :=
  let auth := StartCLISessionWebAuth net hostname signup
  match auth.err with
  | some err => ("", some err)
  | none =>
    let r := waitForCLISession world dur ctx start auth.result.ID
    if errorsIs r.err .DeadlineExceeded then
      ("", some (.New "Login expired, please try again"))
    else if r.err ≠ none then
      ("", r.err)
    else if r.token = "" then
      ("", some (.New "failed to log in, please try again"))
    else
      (r.token, none)


/-! ## Credential store -/

/-- Modelled from the spec: the local configuration store behind
`state.ConfigFile(ctx)`, the records of one file as key and value pairs. The
package `internal/config` that reads and writes it is not part of the source
at hand. -/
abbrev Store := List (String × String)

/-- The value stored under `key`, if any. -/
def Store.get (st : Store) (key : String) : Option String :=
  match st with
  | [] => none
  | (k, v) :: rest => if k = key then some v else Store.get rest key

/-- Modelled from the spec: `config.Clear`, missing from the source, "clear any
existing local credential file/record unconditionally". -/
def config.Clear (_st : Store) : Store := []

/-- Modelled from the spec: `config.SetAccessToken`, missing from the source,
"persist `token` into the local store under its well-known key", where "a
successful persist overwrites any prior value unconditionally" and a failed one
leaves the store as it was. `key` is the constant `config.AccessTokenFileKey`
and `ioErr` the outcome of the write. -/
def config.SetAccessToken (key : String) (ioErr : Option Error) (st : Store) (token : String) :
    Store × Option Error :=
  match ioErr with
  | some err => (st, some err)
  | none => (st.filter (fun kv => decide (kv.1 ≠ key)) ++ [(key, token)], none)

/-- The remote user record returned by `GetCurrentUser`. -/
structure User where
  ID : String
  Email : String
  deriving DecidableEq, Repr

/-- The surroundings of `SaveToken`: the outcome of `agent.DefaultClient`
(an error, or a client whose `Kill` ends with the given error or nil), the
path `state.ConfigFile(ctx)`, the constant `config.AccessTokenFileKey`, the
outcome of writing the store, and the identity resolver behind
`flyutil.NewClientFromOptions(...).GetCurrentUser`. -/
structure Local where
  DefaultClient : Except Error (Option Error)
  ConfigFile : String
  AccessTokenFileKey : String
  writeErr : Option Error
  GetCurrentUser : String → Except Error User

/-- The function `persistAccessToken` (lines 211-220). -/
def persistAccessToken (env : Local) (st : Store) (token : String) : Store × Option Error :=
  let path := env.ConfigFile
  match config.SetAccessToken env.AccessTokenFileKey env.writeErr st token with
  | (st, some err) =>
    (st, some (.Errorf
      ("failed persisting " ++ env.AccessTokenFileKey ++ " in " ++ path ++ ": %w\n") err))
  | (st, none) => (st, none)

/-- The function `SaveToken` (lines 25-48) as a transformer of the store. The
agent is signalled first and the outcome is dropped, the store is cleared, the
token is persisted, and only then is the current user resolved. -/
def SaveToken (env : Local) (st : Store) (token : String) : Store × Option Error :=
  let _killed : Option Error :=
    match env.DefaultClient with
    | .ok killErr => killErr
    | .error _ => none
  let st := config.Clear st
  match persistAccessToken env st token with
  | (st, some err) => (st, some err)
  | (st, none) =>
    match env.GetCurrentUser token with
    | .error err => (st, some (.Errorf "failed retrieving current user: %w" err))
    | .ok _user => (st, none)

/-! ## Stubs used by the closed statements -/

/-- A stub JSON decoder: the body `authorized` is a session with the token
`tok_xyz`, the body `pending` the same session with an empty token, any other
body is malformed and leaves the variable untouched. -/
def stubDecode (body : String) (v : CLISession) : CLISession × Option Error :=
  if body = "authorized" then (⟨"sess1", "http://localhost:4000/auth/sess1", "tok_xyz"⟩, none)
  else if body = "pending" then (⟨"sess1", "http://localhost:4000/auth/sess1", ""⟩, none)
  else (v, some (.New "invalid character"))

/-- The order of keys as sequences of characters, character by character. -/
def stubKeyLt : List Char → List Char → Bool
  | [], [] => false
  | [], _ :: _ => true
  | _ :: _, [] => false
  | a :: as, b :: bs =>
    if a.toNat < b.toNat then true
    else if b.toNat < a.toNat then false
    else stubKeyLt as bs

/-- Puts an entry into a mapping sorted by key, keeping it sorted. -/
def stubInsert (kv : String × Value) : Map → Map
  | [] => [kv]
  | x :: rest =>
    if stubKeyLt kv.1.data x.1.data then kv :: x :: rest else x :: stubInsert kv rest

/-- A stub rendering of one value as JSON text; a string is written between
double quotes as it stands, which is what `encoding/json` does with a string of
plain letters and digits. -/
def stubValue : Value → String
  | .String s => "\"" ++ s ++ "\""
  | .Bool true => "true"
  | .Bool false => "false"
  | .Int n => toString n
  | .Null => "null"

/-- The members of a JSON object, separated by commas. -/
def stubMembers : Map → String
  | [] => ""
  | [(k, v)] => "\"" ++ k ++ "\":" ++ stubValue v
  | (k, v) :: rest => "\"" ++ k ++ "\":" ++ stubValue v ++ "," ++ stubMembers rest

/-- A stub `json.Marshal` for mappings: a JSON object with the keys in sorted
order, as `encoding/json` writes a map, and never an error. -/
def stubMarshal (m : Map) : String × Option Error :=
  ("\x7b" ++ stubMembers (m.foldr stubInsert []) ++ "\x7d", none)

/-- A stub server that answers every request with the given status and body. -/
def stubNet (status : Int) (body : String) : Net :=
  { urlErr := fun _ => none
    Do := fun _ => .ok ⟨status, body⟩
    Marshal := stubMarshal
    Decode := stubDecode
    DecodeMap := fun _ m => (m, some (.New "invalid character")) }

/-- The context `context.Background()`: never done. -/
def background : Context := ⟨none, .Canceled⟩


/-- A stub server for the sequence 404, 404, 404, then 200 with the token
`tok_xyz`. -/
def stubSequence (i : Nat) : Net :=
  if i < 3 then stubNet 404 "" else stubNet 200 "authorized"

/-- A stub server for the sequence 404, then 200 with an empty token for
ever. -/
def stubPending (i : Nat) : Net :=
  if i < 1 then stubNet 404 "" else stubNet 200 "pending"

/-- A stub environment for `SaveToken`: no agent running, writes succeed, and
the resolver knows the token `tok_xyz` only. -/
def stubLocal : Local :=
  { DefaultClient := .error (.New "agent not running")
    ConfigFile := "/home/user/.fly/config.yml"
    AccessTokenFileKey := "access_token"
    writeErr := none
    GetCurrentUser := fun token =>
      if token = "tok_xyz" then .ok ⟨"USER1", "a@b.com"⟩ else .error (.New "unauthorized") }

/-! ## Session creation: theorems -/

theorem Map.get_append_of_none (m1 m2 : Map) (k : String) (h : Map.get m1 k = none) :
    Map.get (m1 ++ m2) k = Map.get m2 k := by
  induction m1 with
  | nil => rfl
  | cons kv rest ih =>
    obtain ⟨k1, v⟩ := kv
    by_cases hk : k1 = k
    · simp [Map.get, hk] at h
    · simp only [Map.get, hk, if_false] at h
      simp only [List.cons_append, Map.get, hk, if_false]
      exact ih h

theorem Map.get_append_of_some (m1 m2 : Map) (k : String) (v : Value)
    (h : Map.get m1 k = some v) : Map.get (m1 ++ m2) k = some v := by
  induction m1 with
  | nil => simp [Map.get] at h
  | cons kv rest ih =>
    obtain ⟨k1, v1⟩ := kv
    by_cases hk : k1 = k
    · simp only [Map.get, hk, if_true] at h
      simp [Map.get, hk, h]
    · simp only [Map.get, hk, if_false] at h
      simp only [List.cons_append, Map.get, hk, if_false]
      exact ih h

theorem Map.get_filter_self (m : Map) (k : String) :
    Map.get (m.filter (fun kv => decide (kv.1 ≠ k))) k = none := by
  induction m with
  | nil => rfl
  | cons kv rest ih =>
    obtain ⟨k1, v⟩ := kv
    by_cases hk : k1 = k
    · rw [List.filter_cons_of_neg (by simp [hk])]
      exact ih
    · rw [List.filter_cons_of_pos (by simp [hk])]
      simp only [Map.get, hk, if_false]
      exact ih

theorem Map.get_filter_other (m : Map) (k k2 : String) (h : k2 ≠ k) :
    Map.get (m.filter (fun kv => decide (kv.1 ≠ k))) k2 = Map.get m k2 := by
  induction m with
  | nil => rfl
  | cons kv rest ih =>
    obtain ⟨k1, v⟩ := kv
    by_cases hk : k1 = k
    · have hk2 : ¬ k1 = k2 := fun e => h (e ▸ hk)
      rw [List.filter_cons_of_neg (by simp [hk])]
      simp only [Map.get, hk2, if_false]
      exact ih
    · rw [List.filter_cons_of_pos (by simp [hk])]
      by_cases hk2 : k1 = k2
      · simp only [Map.get, hk2, if_true]
      · simp only [Map.get, hk2, if_false]
        exact ih

theorem Map.get_set_self (m : Map) (k : String) (v : Value) :
    Map.get (Map.set m k v) k = some v := by
  unfold Map.set
  rw [Map.get_append_of_none _ _ _ (Map.get_filter_self m k)]
  simp [Map.get]

theorem Map.get_set_other (m : Map) (k k2 : String) (v : Value) (h : k2 ≠ k) :
    Map.get (Map.set m k v) k2 = Map.get m k2 := by
  unfold Map.set
  cases hg : Map.get (m.filter (fun kv => decide (kv.1 ≠ k))) k2 with
  | none =>
    rw [Map.get_append_of_none _ _ _ hg, ← Map.get_filter_other m k k2 h, hg]
    have hk : ¬ k = k2 := fun e => h e.symm
    simp [Map.get, hk]
  | some w =>
    rw [Map.get_append_of_some _ _ _ _ hg, ← Map.get_filter_other m k k2 h, hg]


theorem StartCLISession_sent (net : Net) (s : String) (args : Option Map) :
    (StartCLISession net s args).sent =
      match net.urlErr "http://localhost:4000/api/v1/cli_sessions" with
      | some _ => none
      | none => some
        ⟨"POST", "http://localhost:4000/api/v1/cli_sessions",
          [("content-type", "application/json"), ("x-staging", "1")],
          some (net.Marshal (StartCLISession.args s args)).1⟩ := by
  unfold StartCLISession NewRequest
  cases hu : net.urlErr "http://localhost:4000/api/v1/cli_sessions" with
  | some e => simp only [hu]
  | none =>
    simp only [hu]
    split
    · rfl
    · split <;> rfl

/-- C6: the request body that `StartCLISession` serialises is `json.Marshal` of
the mapping `args` with `name` set to the session name: unless `net/http`
rejects the URL, exactly one POST to the session-creation endpoint is handed to
the HTTP client, with that body; in the mapping `name` maps to the session name
whatever the caller supplied (nil mapping included) and every other key keeps
the caller's value. `StartCLISessionWebAuth` is `StartCLISession` on the
mapping of signup and target `auth`, the mapping it serialises is exactly
signup, target `auth` and name, and that is the body of the POST it hands to
the HTTP client. -/
theorem StartCLISession_request_body (net : Net) (s : String) (args : Option Map)
    (machineName : String) (signup : Bool) :
    (StartCLISession net s args).sent =
      (match net.urlErr "http://localhost:4000/api/v1/cli_sessions" with
      | some _ => none
      | none => some
        ⟨"POST", "http://localhost:4000/api/v1/cli_sessions",
          [("content-type", "application/json"), ("x-staging", "1")],
          some (net.Marshal (StartCLISession.args s args)).1⟩)
    ∧ Map.get (StartCLISession.args s args) "name" = some (.String s)
    ∧ (∀ k, k ≠ "name" →
        Map.get (StartCLISession.args s args) k = Map.get (args.getD []) k)
    ∧ StartCLISessionWebAuth net machineName signup =
        StartCLISession net machineName
          (some [("signup", .Bool signup), ("target", .String "auth")])
    ∧ StartCLISession.args machineName
          (some [("signup", .Bool signup), ("target", .String "auth")])
        = [("signup", .Bool signup), ("target", .String "auth"),
            ("name", .String machineName)]
    ∧ (StartCLISessionWebAuth net machineName signup).sent =
      (match net.urlErr "http://localhost:4000/api/v1/cli_sessions" with
      | some _ => none
      | none => some
        ⟨"POST", "http://localhost:4000/api/v1/cli_sessions",
          [("content-type", "application/json"), ("x-staging", "1")],
          some (net.Marshal
            [("signup", .Bool signup), ("target", .String "auth"),
              ("name", .String machineName)]).1⟩) := by
  refine ⟨StartCLISession_sent net s args, Map.get_set_self _ _ _, ?_, rfl, rfl, ?_⟩
  · intro k hk
    unfold StartCLISession.args
    rw [Map.get_set_other _ _ _ _ hk]
    cases args <;> rfl
  · unfold StartCLISessionWebAuth
    rw [StartCLISession_sent]
    rfl

/-- C6 at concrete calls, with a stub `json.Marshal` that writes the JSON
object: a caller-supplied `name` is overridden and the other key is kept, and
`StartCLISessionWebAuth` posts name, signup and target. -/
theorem StartCLISession_request_body_witness :
    (StartCLISession (stubNet 201 "authorized") "host1"
        (some [("name", .String "mine"), ("org", .String "acme")])).sent = some
      ⟨"POST", "http://localhost:4000/api/v1/cli_sessions",
        [("content-type", "application/json"), ("x-staging", "1")],
        some "\x7b\"name\":\"host1\",\"org\":\"acme\"\x7d"⟩
    ∧ Map.get (StartCLISession.args "host1"
        (some [("name", .String "mine"), ("org", .String "acme")])) "org"
        = some (.String "acme")
    ∧ (StartCLISessionWebAuth (stubNet 201 "authorized") "host1" true).sent = some
      ⟨"POST", "http://localhost:4000/api/v1/cli_sessions",
        [("content-type", "application/json"), ("x-staging", "1")],
        some "\x7b\"name\":\"host1\",\"signup\":true,\"target\":\"auth\"\x7d"⟩ :=
  ⟨(StartCLISession_request_body (stubNet 201 "authorized") "host1"
      (some [("name", .String "mine"), ("org", .String "acme")]) "host1" true).1.trans
      (by decide),
    ((StartCLISession_request_body (stubNet 201 "authorized") "host1"
      (some [("name", .String "mine"), ("org", .String "acme")]) "host1" true).2.2.1
        "org" (by decide)).trans (by decide),
    (StartCLISession_request_body (stubNet 201 "authorized") "host1"
      (some [("name", .String "mine"), ("org", .String "acme")]) "host1" true).2.2.2.2.2.trans
      (by decide)⟩

/-- C5: whenever the session-creation endpoint delivers a response whose
status is not 201, `StartCLISession` returns the zero session (empty id, url
and access token) with `fly.ErrUnknown`, whatever the body and whatever the
decoders make of it. -/
theorem StartCLISession_non_201 (net : Net) (s : String) (args : Option Map) (resp : Response)
    (hurl : net.urlErr ("http://localhost:4000/api/v1/cli_sessions") = none)
    (hdo : net.Do
        ⟨"POST", "http://localhost:4000/api/v1/cli_sessions",
          [("content-type", "application/json"), ("x-staging", "1")],
          some (net.Marshal (StartCLISession.args s args)).1⟩ = .ok resp)
    (hstatus : resp.StatusCode ≠ 201) :
    (StartCLISession net s args).err = some .ErrUnknown
    ∧ (StartCLISession net s args).result = CLISession.zero
    ∧ (StartCLISession net s args).result.ID = ""
    ∧ (StartCLISession net s args).result.URL = ""
    ∧ (StartCLISession net s args).result.AccessToken = "" := by
  have h : StartCLISession net s args =
      ⟨some ⟨"POST", "http://localhost:4000/api/v1/cli_sessions",
          [("content-type", "application/json"), ("x-staging", "1")],
          some (net.Marshal (StartCLISession.args s args)).1⟩,
        CLISession.zero, some .ErrUnknown⟩ := by
    unfold StartCLISession NewRequest
    simp only [hurl]
    have hdo2 : net.Do
        ((Request.addHeader ⟨"POST", "http://localhost:4000/api/v1/cli_sessions", [],
            some (net.Marshal (StartCLISession.args s args)).1⟩
          "content-type" "application/json").addHeader "x-staging" "1") = .ok resp := hdo
    simp only [hdo2, hstatus, ne_eq, not_false_eq_true, if_true]
    rfl
  rw [h]
  exact ⟨rfl, rfl, rfl, rfl, rfl⟩

/-- C5 at a concrete call: status 500 with a body that is not JSON. -/
theorem StartCLISession_non_201_witness :
    ((stubNet 500 "<html>").DecodeMap "<html>" []).2 = some (.New "invalid character")
    ∧ (StartCLISession (stubNet 500 "<html>") "host1" none).err = some .ErrUnknown
    ∧ (StartCLISession (stubNet 500 "<html>") "host1" none).result = CLISession.zero :=
  ⟨rfl,
    (StartCLISession_non_201 (stubNet 500 "<html>") "host1" none ⟨500, "<html>"⟩ rfl rfl
      (by decide)).1,
    (StartCLISession_non_201 (stubNet 500 "<html>") "host1" none ⟨500, "<html>"⟩ rfl rfl
      (by decide)).2.1⟩

/-- C4 on the code: a 201 response whose body the decoder rejects makes
`StartCLISession` return the zero session with a nil error, not a decode
error. -/
theorem StartCLISession_malformed_201_nil_error :
    ((stubNet 201 "<html>").Decode "<html>" CLISession.zero).2 = some (.New "invalid character")
    ∧ (StartCLISession (stubNet 201 "<html>") "host1" none).err = none
    ∧ (StartCLISession (stubNet 201 "<html>") "host1" none).result = CLISession.zero := by
  decide


/-! ## Session state query: theorems -/

theorem GetAccessTokenForCLISession_of_error (net : Net) (id : String) (e : Error)
    (h : (GetCLISessionState net id).2 = some e) :
    GetAccessTokenForCLISession net id = ("", some e) := by
  unfold GetAccessTokenForCLISession
  rcases hg : GetCLISessionState net id with ⟨v, err⟩
  rw [hg] at h
  simp only at h
  subst h
  rfl

theorem GetCLISessionState_error_zero (net : Net) (id : String) (e : Error)
    (h : (GetCLISessionState net id).2 = some e) :
    (GetCLISessionState net id).1 = CLISession.zero := by
  unfold GetCLISessionState NewRequest at h ⊢
  cases hu : net.urlErr ("http://localhost:4000/api/v1/cli_sessions/" ++ id) with
  | some e0 => simp only [hu]
  | none =>
    simp only [hu] at h ⊢
    cases hd : net.Do (Request.addHeader
        ⟨"GET", "http://localhost:4000/api/v1/cli_sessions/" ++ id, [], none⟩ "x-staging" "1") with
    | error e1 => simp only [hd]
    | ok res =>
      simp only [hd] at h ⊢
      by_cases h200 : res.StatusCode = 200
      · simp only [h200, if_true] at h ⊢
        rcases hdec : net.Decode res.Body CLISession.zero with ⟨v, err⟩
        rw [hdec] at h
        cases err with
        | none => simp at h
        | some e2 => rfl
      · simp only [h200, if_false] at h ⊢
        by_cases h404 : res.StatusCode = 404
        · simp only [h404, if_true]
        · simp only [h404, if_false]

/-- C7: once the transport delivers a response, `GetCLISessionState` is decided
by the status code: 200 with a body that decodes gives the decoded session and
no error, 200 with a body that does not decode gives a decode error, 404 gives
`fly.ErrNotFound`, any other status gives `fly.ErrUnknown`; whenever an error is
returned the session is the zero value and `GetAccessTokenForCLISession` returns
the empty string with the same error, and without an error it returns the
session's access token. -/
theorem GetCLISessionState_by_status (net : Net) (id : String) (res : Response)
    (hurl : net.urlErr ("http://localhost:4000/api/v1/cli_sessions/" ++ id) = none)
    (hdo : net.Do ⟨"GET", "http://localhost:4000/api/v1/cli_sessions/" ++ id,
        [("x-staging", "1")], none⟩ = .ok res) :
    (∀ auth, res.StatusCode = 200 → net.Decode res.Body CLISession.zero = (auth, none) →
        GetCLISessionState net id = (auth, none)
        ∧ GetAccessTokenForCLISession net id = (auth.AccessToken, none))
    ∧ (∀ v e, res.StatusCode = 200 → net.Decode res.Body CLISession.zero = (v, some e) →
        GetCLISessionState net id =
          (CLISession.zero, some (.Errorf "failed to decode session, please try again: %w" e)))
    ∧ (res.StatusCode = 404 →
        GetCLISessionState net id = (CLISession.zero, some .ErrNotFound))
    ∧ (res.StatusCode ≠ 200 → res.StatusCode ≠ 404 →
        GetCLISessionState net id = (CLISession.zero, some .ErrUnknown))
    ∧ (∀ e, (GetCLISessionState net id).2 = some e →
        (GetCLISessionState net id).1 = CLISession.zero
        ∧ GetAccessTokenForCLISession net id = ("", some e)) := by
  have hdo2 : net.Do (Request.addHeader
      ⟨"GET", "http://localhost:4000/api/v1/cli_sessions/" ++ id, [], none⟩ "x-staging" "1")
        = .ok res := hdo
  refine ⟨?_, ?_, ?_, ?_, ?_⟩
  · intro auth h200 hdec
    have hs : GetCLISessionState net id = (auth, none) := by
      unfold GetCLISessionState NewRequest
      simp only [hurl, hdo2, h200, if_true, hdec]
    refine ⟨hs, ?_⟩
    unfold GetAccessTokenForCLISession
    rw [hs]
  · intro v e h200 hdec
    unfold GetCLISessionState NewRequest
    simp only [hurl, hdo2, h200, if_true, hdec]
  · intro h404
    have h200 : ¬ res.StatusCode = 200 := by rw [h404]; decide
    unfold GetCLISessionState NewRequest
    simp only [hurl, hdo2, h200, if_false]
    simp only [h404, if_true]
  · intro h200 h404
    unfold GetCLISessionState NewRequest
    simp only [hurl, hdo2, h200, if_false, h404]
  · intro e he
    exact ⟨GetCLISessionState_error_zero net id e he,
      GetAccessTokenForCLISession_of_error net id e he⟩

/-- C7 at concrete responses: a 404 and an authorised 200. -/
theorem GetCLISessionState_by_status_witness :
    GetCLISessionState (stubNet 404 "") "sess1" = (CLISession.zero, some .ErrNotFound)
    ∧ GetAccessTokenForCLISession (stubNet 200 "authorized") "sess1" = ("tok_xyz", none) :=
  ⟨(GetCLISessionState_by_status (stubNet 404 "") "sess1" ⟨404, ""⟩ rfl rfl).2.2.1 rfl,
    ((GetCLISessionState_by_status (stubNet 200 "authorized") "sess1" ⟨200, "authorized"⟩
      rfl rfl).1 ⟨"sess1", "http://localhost:4000/auth/sess1", "tok_xyz"⟩ rfl
        (by decide)).2⟩


/-! ## Credential store: theorems -/

theorem Error.Is_self (e : Error) : e.Is e = true := by
  cases e <;> simp [Error.Is]

theorem SaveToken_of_write_ok (env : Local) (st : Store) (token : String)
    (hwrite : env.writeErr = none) :
    SaveToken env st token =
      match env.GetCurrentUser token with
      | .error err =>
        ([(env.AccessTokenFileKey, token)],
          some (.Errorf "failed retrieving current user: %w" err))
      | .ok _ => ([(env.AccessTokenFileKey, token)], none) := by
  unfold SaveToken persistAccessToken config.SetAccessToken config.Clear
  simp only [hwrite, List.filter_nil, List.nil_append]

/-- C8: when the write succeeds and the resolver fails with `e`, `SaveToken`
returns the error `failed retrieving current user` wrapping `e`, and the store
it leaves holds the token under the access-token key and nothing else: the
write is not undone and the prior records are gone. -/
theorem SaveToken_verification_failure (env : Local) (st : Store) (token : String) (e : Error)
    (hwrite : env.writeErr = none) (hres : env.GetCurrentUser token = .error e) :
    (SaveToken env st token).2 = some (.Errorf "failed retrieving current user: %w" e)
    ∧ errorsIs (SaveToken env st token).2 e = true
    ∧ Store.get (SaveToken env st token).1 env.AccessTokenFileKey = some token
    ∧ (SaveToken env st token).1 = [(env.AccessTokenFileKey, token)] := by
  rw [SaveToken_of_write_ok env st token hwrite, hres]
  refine ⟨rfl, ?_, ?_, rfl⟩
  · simp [errorsIs, Error.Is, Error.Is_self]
  · simp [Store.get]

/-- C8 at a concrete call: a token the resolver rejects, over a store that held
another token. -/
theorem SaveToken_verification_failure_witness :
    (SaveToken stubLocal [("access_token", "old")] "tok_bad").2
      = some (.Errorf "failed retrieving current user: %w" (.New "unauthorized"))
    ∧ Store.get (SaveToken stubLocal [("access_token", "old")] "tok_bad").1 "access_token"
      = some "tok_bad" :=
  ⟨(SaveToken_verification_failure stubLocal [("access_token", "old")] "tok_bad"
      (.New "unauthorized") rfl (by simp [stubLocal])).1,
    (SaveToken_verification_failure stubLocal [("access_token", "old")] "tok_bad"
      (.New "unauthorized") rfl (by simp [stubLocal])).2.2.1⟩

/-- C9: when writing and verification succeed, saving the same token twice
leaves the store that saving it once leaves, and both calls return a nil error,
whatever the outcome of signalling the agent in any of the calls. -/
theorem SaveToken_idempotent (env : Local) (st : Store) (token : String) (user : User)
    (a1 a2 a3 : Except Error (Option Error))
    (hwrite : env.writeErr = none) (hres : env.GetCurrentUser token = .ok user) :
    (SaveToken { env with DefaultClient := a2 }
        (SaveToken { env with DefaultClient := a1 } st token).1 token).1
      = (SaveToken { env with DefaultClient := a3 } st token).1
    ∧ (SaveToken { env with DefaultClient := a1 } st token).2 = none
    ∧ (SaveToken { env with DefaultClient := a2 }
        (SaveToken { env with DefaultClient := a1 } st token).1 token).2 = none := by
  have h : ∀ (a : Except Error (Option Error)) (st0 : Store),
      SaveToken { env with DefaultClient := a } st0 token
        = ([(env.AccessTokenFileKey, token)], none) := by
    intro a st0
    rw [SaveToken_of_write_ok { env with DefaultClient := a } st0 token hwrite]
    simp only [hres]
  rw [h a1 st, h a2, h a3]
  exact ⟨rfl, rfl, rfl⟩

/-- C9 at a concrete call: the agent is absent in the first call, is killed in
the second, and fails to be killed in the single call. -/
theorem SaveToken_idempotent_witness :
    (SaveToken { stubLocal with DefaultClient := .ok none }
        (SaveToken { stubLocal with DefaultClient := .error (.New "agent not running") }
          [("access_token", "old")] "tok_xyz").1 "tok_xyz").1
      = (SaveToken { stubLocal with DefaultClient := .ok (some (.New "kill failed")) }
          [("access_token", "old")] "tok_xyz").1 :=
  (SaveToken_idempotent stubLocal [("access_token", "old")] "tok_xyz" ⟨"USER1", "a@b.com"⟩
    (.error (.New "agent not running")) (.ok none) (.ok (some (.New "kill failed")))
    rfl (by simp [stubLocal])).1


/-! ## Polling: theorems -/

theorem WithTimeout_doneAt (parent : Context) (start : Nat) (d : Duration) :
    ∃ t, (WithTimeout parent start d).doneAt = some t ∧ t ≤ start + d := by
  unfold WithTimeout
  cases h : parent.doneAt with
  | none => exact ⟨start + d, rfl, le_refl _⟩
  | some t =>
    by_cases ht : t ≤ start + d
    · exact ⟨t, by simp [ht, h], ht⟩
    · exact ⟨start + d, by simp [ht], le_refl _⟩

theorem pauseFor_advances (parent : Context) (start now d0 : Nat)
    (h : (WithTimeout parent start (15 * Minute)).Err now = none) :
    start + 15 * Minute + 1 - pauseFor (WithTimeout parent start (15 * Minute)) (now + d0) Second
      < start + 15 * Minute + 1 - now := by
  obtain ⟨t, ht, hle⟩ := WithTimeout_doneAt parent start (15 * Minute)
  have hnow : now < t := by
    unfold Context.Err at h
    rw [ht] at h
    by_contra hc
    simp [Nat.le_of_not_lt hc] at h
  have hS : (0 : Nat) < Second := by decide
  unfold pauseFor
  rw [ht]
  by_cases h1 : t ≤ now + d0
  · simp only [h1, if_true]; omega
  · simp only [h1, if_false]
    have : now < min (now + d0 + Second) t := by
      rw [lt_min_iff]; constructor <;> omega
    omega

theorem Context.Err_none_of_le (ctx : Context) (t1 t2 : Nat) (h : t1 ≤ t2)
    (h2 : ctx.Err t2 = none) : ctx.Err t1 = none := by
  unfold Context.Err at h2 ⊢
  cases hd : ctx.doneAt with
  | none => rfl
  | some t =>
    rw [hd] at h2
    by_cases ht : t ≤ t2
    · simp [ht] at h2
    · have : ¬ t ≤ t1 := fun h1 => ht (le_trans h1 h)
      simp [this]

theorem pauseFor_full (ctx : Context) (now : Nat) (d : Duration)
    (h : ctx.Err (now + d) = none) : pauseFor ctx now d = now + d := by
  unfold Context.Err at h
  unfold pauseFor
  cases hd : ctx.doneAt with
  | none => rfl
  | some t =>
    rw [hd] at h
    by_cases ht : t ≤ now + d
    · simp [ht] at h
    · have h1 : ¬ t ≤ now := fun h1 => ht (le_trans h1 (Nat.le_add_right _ _))
      simp only [h1, if_false]
      exact min_eq_left (Nat.le_of_lt (Nat.lt_of_not_le ht))

theorem loop_done (world : Nat → Net) (dur : Nat → Duration) (parent : Context)
    (start : Nat) (id : String) (st : Poll)
    (h : (WithTimeout parent start (15 * Minute)).Err st.now ≠ none) :
    waitForCLISession.loop world dur parent start id st = st := by
  rw [waitForCLISession.loop]
  simp only [h, dite_false]

theorem loop_success (world : Nat → Net) (dur : Nat → Duration) (parent : Context)
    (start : Nat) (id : String) (st : Poll) (tok : String)
    (h : (WithTimeout parent start (15 * Minute)).Err st.now = none)
    (hq : GetAccessTokenForCLISession (world st.queries) id = (tok, none)) :
    waitForCLISession.loop world dur parent start id st =
      { token := tok, err := none, queries := st.queries + 1, sleeps := st.sleeps,
        now := st.now + dur st.queries } := by
  rw [waitForCLISession.loop]
  simp only [h, dite_true, hq]

theorem loop_failure (world : Nat → Net) (dur : Nat → Duration) (parent : Context)
    (start : Nat) (id : String) (st : Poll) (tok : String) (e : Error)
    (h : (WithTimeout parent start (15 * Minute)).Err st.now = none)
    (hq : GetAccessTokenForCLISession (world st.queries) id = (tok, some e)) :
    waitForCLISession.loop world dur parent start id st =
      waitForCLISession.loop world dur parent start id
        { token := tok, err := some e, queries := st.queries + 1,
          sleeps := st.sleeps ++
            [pauseFor (WithTimeout parent start (15 * Minute)) (st.now + dur st.queries) Second
              - (st.now + dur st.queries)],
          now := pauseFor (WithTimeout parent start (15 * Minute))
            (st.now + dur st.queries) Second } := by
  rw [waitForCLISession.loop]
  simp only [h, dite_true, hq]

theorem loop_after_failures (world : Nat → Net) (dur : Nat → Duration) (parent : Context)
    (start : Nat) (id : String) (tok : String) :
    ∀ (n : Nat) (st : Poll),
      (∀ i, i < n → (GetAccessTokenForCLISession (world (st.queries + i)) id).2 ≠ none) →
      GetAccessTokenForCLISession (world (st.queries + n)) id = (tok, none) →
      (WithTimeout parent start (15 * Minute)).Err (st.now + elapsed dur st.queries n) = none →
      waitForCLISession.loop world dur parent start id st =
        { token := tok, err := none, queries := st.queries + n + 1,
          sleeps := st.sleeps ++ List.replicate n Second,
          now := st.now + elapsed dur st.queries n + dur (st.queries + n) } := by
  intro n
  induction n with
  | zero =>
    intro st _ hok hctx
    simp only [elapsed, Nat.add_zero] at hok hctx ⊢
    rw [loop_success world dur parent start id st tok hctx hok]
    simp
  | succ n ih =>
    intro st hfail hok hctx
    have hle1 : st.now ≤ st.now + elapsed dur st.queries (n + 1) := Nat.le_add_right _ _
    have hnow := Context.Err_none_of_le _ _ _ hle1 hctx
    have hle2 : st.now + dur st.queries + Second ≤ st.now + elapsed dur st.queries (n + 1) := by
      simp only [elapsed]; omega
    have hpause := pauseFor_full _ (st.now + dur st.queries) Second
      (Context.Err_none_of_le _ _ _ hle2 hctx)
    have h0 := hfail 0 (Nat.succ_pos n)
    rcases hq : GetAccessTokenForCLISession (world st.queries) id with ⟨tok0, err0⟩
    rw [Nat.add_zero, hq] at h0
    cases err0 with
    | none => exact absurd rfl h0
    | some e =>
      rw [loop_failure world dur parent start id st tok0 e hnow hq]
      simp only [hpause]
      rw [ih]
      · have hidx : st.queries + 1 + n = st.queries + (n + 1) := by omega
        simp only [elapsed, List.replicate_succ, List.append_assoc, List.singleton_append,
          Nat.add_sub_cancel_left, hidx]
        congr 1
        omega
      · intro i hi
        have := hfail (i + 1) (Nat.succ_lt_succ hi)
        simpa [Nat.add_assoc, Nat.add_comm 1 i] using this
      · simpa [Nat.add_assoc, Nat.add_comm 1 n] using hok
      · have : st.now + dur st.queries + Second + elapsed dur (st.queries + 1) n
            = st.now + elapsed dur st.queries (n + 1) := by
          simp only [elapsed]; omega
        simp only [this]
        exact hctx


theorem Context.Err_eq_cause (ctx : Context) (t : Nat) (h : ctx.Err t ≠ none) :
    ctx.Err t = some ctx.cause := by
  unfold Context.Err at h ⊢
  cases hd : ctx.doneAt with
  | none => rw [hd] at h; exact absurd rfl h
  | some t0 =>
    rw [hd] at h
    by_cases ht : t0 ≤ t
    · simp [ht]
    · simp [ht] at h

theorem loop_returns_last_query (world : Nat → Net) (dur : Nat → Duration) (parent : Context)
    (start : Nat) (id : String) :
    ∀ (m : Nat) (st : Poll), start + 15 * Minute + 1 - st.now ≤ m →
      ((WithTimeout parent start (15 * Minute)).Err st.now ≠ none →
          waitForCLISession.loop world dur parent start id st = st)
      ∧ ((WithTimeout parent start (15 * Minute)).Err st.now = none →
          st.queries < (waitForCLISession.loop world dur parent start id st).queries
          ∧ ((waitForCLISession.loop world dur parent start id st).token,
              (waitForCLISession.loop world dur parent start id st).err)
            = GetAccessTokenForCLISession
                (world ((waitForCLISession.loop world dur parent start id st).queries - 1)) id
          ∧ ((waitForCLISession.loop world dur parent start id st).err ≠ none →
              (WithTimeout parent start (15 * Minute)).Err
                (waitForCLISession.loop world dur parent start id st).now ≠ none)) := by
  intro m
  induction m with
  | zero =>
    intro st hm
    refine ⟨loop_done world dur parent start id st, ?_⟩
    intro hnd
    have hadv := pauseFor_advances parent start st.now 0 hnd
    omega
  | succ m ih =>
    intro st hm
    refine ⟨loop_done world dur parent start id st, ?_⟩
    intro hnd
    rcases hq : GetAccessTokenForCLISession (world st.queries) id with ⟨tok, err⟩
    cases err with
    | none =>
      rw [loop_success world dur parent start id st tok hnd hq]
      refine ⟨Nat.lt_succ_self _, ?_, ?_⟩
      · simp only [Nat.add_sub_cancel]
        exact hq.symm
      · intro h
        exact absurd rfl h
    | some e =>
      rw [loop_failure world dur parent start id st tok e hnd hq]
      have hadv := pauseFor_advances parent start st.now (dur st.queries) hnd
      have hm2 : start + 15 * Minute + 1
          - pauseFor (WithTimeout parent start (15 * Minute)) (st.now + dur st.queries) Second
          ≤ m := by omega
      obtain ⟨hd, hn⟩ := ih
        { token := tok, err := some e, queries := st.queries + 1,
          sleeps := st.sleeps ++
            [pauseFor (WithTimeout parent start (15 * Minute)) (st.now + dur st.queries) Second
              - (st.now + dur st.queries)],
          now := pauseFor (WithTimeout parent start (15 * Minute))
            (st.now + dur st.queries) Second } hm2
      by_cases hdone : (WithTimeout parent start (15 * Minute)).Err
          (pauseFor (WithTimeout parent start (15 * Minute)) (st.now + dur st.queries) Second)
            = none
      · obtain ⟨h1, h2, h3⟩ := hn hdone
        exact ⟨Nat.lt_trans (Nat.lt_succ_self _) h1, h2, h3⟩
      · rw [hd hdone]
        refine ⟨Nat.lt_succ_self _, ?_, ?_⟩
        · simp only [Nat.add_sub_cancel]
          exact hq.symm
        · intro _
          exact hdone

/-- C3: for every `n`, when the first `n` session-state queries fail (in any
way), the next one succeeds with a non-empty token `t`, and the context is not
done up to the top of that last attempt, `waitForCLISession` returns `t` with a
nil error after exactly `n + 1` queries and exactly `n` pauses of one second
each, none after the successful query. -/
theorem waitForCLISession_after_failures (world : Nat → Net) (dur : Nat → Duration)
    (parent : Context) (start : Nat) (id : String) (n : Nat) (t : String)
    (hfail : ∀ i, i < n → (GetAccessTokenForCLISession (world i) id).2 ≠ none)
    (hok : GetAccessTokenForCLISession (world n) id = (t, none))
    (_ht : t ≠ "")
    (hctx : (WithTimeout parent start (15 * Minute)).Err (start + elapsed dur 0 n) = none) :
    waitForCLISession world dur parent start id =
      { token := t, err := none, queries := n + 1, sleeps := List.replicate n Second,
        now := start + elapsed dur 0 n + dur n } := by
  unfold waitForCLISession
  rw [loop_after_failures world dur parent start id t n
    { token := "", err := none, queries := 0, sleeps := [], now := start }
    (by simpa using hfail) (by simpa using hok) hctx]
  simp

/-- C3 at the sequence 404, 404, 404, 200 with `tok_xyz`: the token comes back
after four queries and three pauses of a second. -/
theorem waitForCLISession_after_failures_witness :
    waitForCLISession stubSequence (fun _ => 0) background 0 "sess1" =
      { token := "tok_xyz", err := none, queries := 4, sleeps := [Second, Second, Second],
        now := 3 * Second } :=
  waitForCLISession_after_failures stubSequence (fun _ => 0) background 0 "sess1" 3 "tok_xyz"
    (by decide) (by decide) (by decide) (by decide)

/-- C1 on the code: against a server that always answers 200 with an empty
token, `waitForCLISession` returns the empty token and a nil error after its
first query, at the instant it started, with the context not done. -/
theorem waitForCLISession_empty_token_counterexample :
    GetAccessTokenForCLISession (stubNet 200 "pending") "sess1" = ("", none)
    ∧ (WithTimeout background 0 (15 * Minute)).Err 0 = none
    ∧ waitForCLISession (fun _ => stubNet 200 "pending") (fun _ => 0) background 0 "sess1" =
      { token := "", err := none, queries := 1, sleeps := [], now := 0 } := by
  refine ⟨by decide, by decide, ?_⟩
  unfold waitForCLISession
  rw [loop_success (fun _ => stubNet 200 "pending") (fun _ => 0) background 0 "sess1" _ ""
    (by decide) (by decide)]

/-- C1 as amended: for every `n`, when the first `n` session-state queries fail,
the next one succeeds with an empty access token, and the context is not done
up to the top of that attempt, `waitForCLISession` returns the empty token with
a nil error right after that query: `n + 1` queries, `n` pauses, no pause and
no query after the empty-token answer. -/
theorem waitForCLISession_empty_token_returns (world : Nat → Net) (dur : Nat → Duration)
    (parent : Context) (start : Nat) (id : String) (n : Nat)
    (hfail : ∀ i, i < n → (GetAccessTokenForCLISession (world i) id).2 ≠ none)
    (hok : GetAccessTokenForCLISession (world n) id = ("", none))
    (hctx : (WithTimeout parent start (15 * Minute)).Err (start + elapsed dur 0 n) = none) :
    waitForCLISession world dur parent start id =
      { token := "", err := none, queries := n + 1, sleeps := List.replicate n Second,
        now := start + elapsed dur 0 n + dur n } := by
  unfold waitForCLISession
  rw [loop_after_failures world dur parent start id "" n
    { token := "", err := none, queries := 0, sleeps := [], now := start }
    (by simpa using hfail) (by simpa using hok) hctx]
  simp

/-- C1 as amended, at the sequence 404, 200 with an empty token: the empty
token comes back after two queries and one pause. -/
theorem waitForCLISession_empty_token_returns_witness :
    waitForCLISession stubPending (fun _ => 0) background 0 "sess1" =
      { token := "", err := none, queries := 2, sleeps := [Second], now := Second } :=
  waitForCLISession_empty_token_returns stubPending (fun _ => 0) background 0 "sess1" 1
    (by decide) (by decide) (by decide)


theorem waitForCLISession_all_not_found (dur : Nat → Duration) (parent : Context) (start : Nat)
    (h : (WithTimeout parent start (15 * Minute)).Err start = none) :
    (waitForCLISession (fun _ => stubNet 404 "") dur parent start "sess1").token = ""
    ∧ (waitForCLISession (fun _ => stubNet 404 "") dur parent start "sess1").err
        = some .ErrNotFound
    ∧ (WithTimeout parent start (15 * Minute)).Err
        (waitForCLISession (fun _ => stubNet 404 "") dur parent start "sess1").now
        = some (WithTimeout parent start (15 * Minute)).cause := by
  obtain ⟨_, hn⟩ := loop_returns_last_query (fun _ => stubNet 404 "") dur parent start "sess1"
    (start + 15 * Minute + 1 - start)
    { token := "", err := none, queries := 0, sleeps := [], now := start } (le_refl _)
  obtain ⟨_, h2, h3⟩ := hn h
  have hq : GetAccessTokenForCLISession (stubNet 404 "") "sess1" = ("", some .ErrNotFound) := by
    decide
  rw [hq] at h2
  unfold waitForCLISession
  have htok := congrArg Prod.fst h2
  have herr := congrArg Prod.snd h2
  simp only at htok herr
  refine ⟨htok, herr, ?_⟩
  apply Context.Err_eq_cause
  apply h3
  rw [herr]
  exact Option.some_ne_none _

/-- C2 on the code: against a server that answers 404 to every query at once,
(1) under `context.Background()` the run ends with the 15-minute deadline
exceeded and returns `fly.ErrNotFound`; (2) under a parent cancelled 1.5 seconds
after the start the run ends cancelled and returns `fly.ErrNotFound`; (3) under
a parent already cancelled the run makes no query and returns a nil error. -/
theorem waitForCLISession_done_returns_query_error :
    ((waitForCLISession (fun _ => stubNet 404 "") (fun _ => 0) background 0 "sess1").err
        = some .ErrNotFound
      ∧ (WithTimeout background 0 (15 * Minute)).Err
          (waitForCLISession (fun _ => stubNet 404 "") (fun _ => 0) background 0 "sess1").now
        = some .DeadlineExceeded)
    ∧ ((waitForCLISession (fun _ => stubNet 404 "") (fun _ => 0)
          ⟨some 1500000000, .Canceled⟩ 0 "sess1").err = some .ErrNotFound
      ∧ (WithTimeout ⟨some 1500000000, .Canceled⟩ 0 (15 * Minute)).Err
          (waitForCLISession (fun _ => stubNet 404 "") (fun _ => 0)
            ⟨some 1500000000, .Canceled⟩ 0 "sess1").now
        = some .Canceled)
    ∧ (WithTimeout ⟨some 0, .Canceled⟩ 0 (15 * Minute)).Err 0 = some .Canceled
    ∧ waitForCLISession (fun _ => stubNet 404 "") (fun _ => 0) ⟨some 0, .Canceled⟩ 0 "sess1"
        = { token := "", err := none, queries := 0, sleeps := [], now := 0 } := by
  refine ⟨?_, ?_, by decide, ?_⟩
  · have h := waitForCLISession_all_not_found (fun _ => 0) background 0 (by decide)
    exact ⟨h.2.1, h.2.2⟩
  · have h := waitForCLISession_all_not_found (fun _ => 0) ⟨some 1500000000, .Canceled⟩ 0
      (by decide)
    exact ⟨h.2.1, h.2.2⟩
  · unfold waitForCLISession
    exact loop_done _ _ _ _ _ _ (by decide)

/-! ## Orchestration: theorems -/

/-- C10: once the session has been created, `RunWebLogin` is decided by the
pair the poller returns: a deadline-exceeded error (bare or wrapped) gives the
empty token and `Login expired, please try again`; any other error gives the
empty token and that error; a nil error with an empty token gives the empty
token and `failed to log in, please try again`; otherwise the token comes back
with a nil error. So the error is nil exactly when the token is non-empty. -/
theorem RunWebLogin_by_poll_outcome (net : Net) (world : Nat → Net) (dur : Nat → Duration)
    (hostname : String) (ctx : Context) (start : Nat) (signup : Bool)
    (hstart : (StartCLISessionWebAuth net hostname signup).err = none) :
    (errorsIs (waitForCLISession world dur ctx start
          (StartCLISessionWebAuth net hostname signup).result.ID).err .DeadlineExceeded = true →
        RunWebLogin net world dur hostname ctx start signup
          = ("", some (.New "Login expired, please try again")))
    ∧ (∀ e, (waitForCLISession world dur ctx start
          (StartCLISessionWebAuth net hostname signup).result.ID).err = some e →
        e.Is .DeadlineExceeded = false →
        RunWebLogin net world dur hostname ctx start signup = ("", some e))
    ∧ ((waitForCLISession world dur ctx start
          (StartCLISessionWebAuth net hostname signup).result.ID).err = none →
        (waitForCLISession world dur ctx start
          (StartCLISessionWebAuth net hostname signup).result.ID).token = "" →
        RunWebLogin net world dur hostname ctx start signup
          = ("", some (.New "failed to log in, please try again")))
    ∧ ((waitForCLISession world dur ctx start
          (StartCLISessionWebAuth net hostname signup).result.ID).err = none →
        (waitForCLISession world dur ctx start
          (StartCLISessionWebAuth net hostname signup).result.ID).token ≠ "" →
        RunWebLogin net world dur hostname ctx start signup
          = ((waitForCLISession world dur ctx start
              (StartCLISessionWebAuth net hostname signup).result.ID).token, none))
    ∧ ((RunWebLogin net world dur hostname ctx start signup).2 = none
        ↔ (RunWebLogin net world dur hostname ctx start signup).1 ≠ "") := by
  have hrun : RunWebLogin net world dur hostname ctx start signup =
      if errorsIs (waitForCLISession world dur ctx start
          (StartCLISessionWebAuth net hostname signup).result.ID).err .DeadlineExceeded then
        ("", some (.New "Login expired, please try again"))
      else if (waitForCLISession world dur ctx start
          (StartCLISessionWebAuth net hostname signup).result.ID).err ≠ none then
        ("", (waitForCLISession world dur ctx start
          (StartCLISessionWebAuth net hostname signup).result.ID).err)
      else if (waitForCLISession world dur ctx start
          (StartCLISessionWebAuth net hostname signup).result.ID).token = "" then
        ("", some (.New "failed to log in, please try again"))
      else
        ((waitForCLISession world dur ctx start
          (StartCLISessionWebAuth net hostname signup).result.ID).token, none) := by
    unfold RunWebLogin
    simp only [hstart]
  generalize waitForCLISession world dur ctx start
    (StartCLISessionWebAuth net hostname signup).result.ID = r at hrun ⊢
  rw [hrun]
  refine ⟨?_, ?_, ?_, ?_, ?_⟩
  · intro h
    simp only [h, if_true]
  · intro e he hne
    have h1 : errorsIs (some e) .DeadlineExceeded = false := hne
    simp [he, h1]
  · intro he ht
    simp [he, ht, errorsIs]
  · intro he ht
    simp [he, ht, errorsIs]
  · by_cases h1 : errorsIs r.err .DeadlineExceeded = true
    · simp [h1]
    · cases he : r.err with
      | some e =>
        rw [he] at h1
        simp [h1]
      | none =>
        by_cases ht : r.token = ""
        · simp [he, ht, errorsIs]
        · simp [he, ht, errorsIs]

/-- C10 at a concrete run: the session is created, the poller sees 404 three
times and then the token `tok_xyz`, which `RunWebLogin` returns. -/
theorem RunWebLogin_by_poll_outcome_witness :
    RunWebLogin (stubNet 201 "pending") stubSequence (fun _ => 0) "host1" background 0 false
      = ("tok_xyz", none) := by
  have hw : waitForCLISession stubSequence (fun _ => 0) background 0
      (StartCLISessionWebAuth (stubNet 201 "pending") "host1" false).result.ID =
      { token := "tok_xyz", err := none, queries := 4, sleeps := [Second, Second, Second],
        now := 3 * Second } :=
    loop_after_failures stubSequence (fun _ => 0) background 0 _ "tok_xyz" 3
      { token := "", err := none, queries := 0, sleeps := [], now := 0 }
      (by decide) (by decide) (by decide)
  have h := (RunWebLogin_by_poll_outcome (stubNet 201 "pending") stubSequence (fun _ => 0)
    "host1" background 0 false (by decide)).2.2.2.1
  rw [hw] at h
  exact h rfl (by decide)


end Webauth
